import Mathlib

/-!
Verification of `biocrnpyler/global_mechanism.py`: the species filter
(`GlobalMechanism.apply_filter`), the parameter resolver
(`GlobalMechanism.get_parameter`), the bulk dispatch loops
(`update_species_global` / `update_reactions_global`) and the two concrete
mechanisms (`Dilution`, `AnitDilutionConstiutiveCreation`).

The Python data model is embedded shallowly:
* a `Species` carries a name, a material type, a canonical representation
  string (the value of Python `repr`, produced outside this module) and a
  list of attribute strings; a `ComplexSpecies` additionally carries its
  ordered list of direct constituents;
* the `filter_dict` is an association list from token strings to booleans
  (Python dict keys are unique; lookup is first-match);
* the parameter store maps composite keys (1-, 2- or 3-tuples of strings)
  to values of an arbitrary type `α`;
* Python exceptions become the `Err` sum: `filterConflict` for the
  `AttributeError` raised by `apply_filter`, `lookupFailure` for the
  `ValueError` raised by `get_parameter`, and `keyError` for a raw
  dictionary `KeyError`.
-/

namespace BioCRNPyler

/-- The value-like data every species carries: name, material type,
canonical representation (Python `repr`) and attribute strings. -/
structure SpeciesData where
  name : String
  material_type : String
  rep : String
  attributes : List String

/-- A species is either a plain `Species` or a `ComplexSpecies` that also
owns an ordered list of direct constituent sub-species. -/
inductive Species where
  | simple : SpeciesData → Species
  | cplx : SpeciesData → List Species → Species

/-- The data record at the top of a species. -/
def Species.data : Species → SpeciesData
  | .simple d => d
  | .cplx d _ => d

def Species.name (s : Species) : String := s.data.name

def Species.material_type (s : Species) : String := s.data.material_type

def Species.rep (s : Species) : String := s.data.rep

def Species.attributes (s : Species) : List String := s.data.attributes

/-- `s.species` in the source: the direct constituents of a
`ComplexSpecies`, and `[]` for a plain species. -/
def Species.subspecies : Species → List Species
  | .simple _ => []
  | .cplx _ l => l

/-- A composite key of the parameter store: Python uses bare strings,
2-tuples and 3-tuples of strings as dictionary keys. -/
inductive PKey where
  | one (a : String)
  | two (a b : String)
  | three (a b c : String)
deriving DecidableEq

/-- The errors the module can raise: the filter-conflict `AttributeError`
of `apply_filter` (naming the species representation and the mechanism),
the `ValueError` of `get_parameter` (naming mechanism name, mechanism
type, species representation and parameter name) and a raw dictionary
`KeyError`. -/
inductive Err where
  | filterConflict (species_rep mechanism_name : String)
  | lookupFailure (mech_name mech_type species_rep param_name : String)
  | keyError (key : PKey)
deriving DecidableEq

/-- First-match association-list lookup, modelling Python dictionary
membership and access (`k in d` / `d[k]`). -/
def lookupKV {κ : Type} [DecidableEq κ] {β : Type} (k : κ) : List (κ × β) → Option β
  | [] => none
  | (k', v) :: rest => if k' = k then some v else lookupKV k rest

/-- The configuration of a `GlobalMechanism`: name, mechanism type,
filter dictionary and the `default_on` flag. -/
structure GlobalMechanism where
  name : String
  mechanism_type : String
  filter_dict : List (String × Bool)
  default_on : Bool

/-- The inner loop of `apply_filter`: scan a token list against the
filter dictionary, threading the `use_mechanism` state; a matched value
that disagrees with an earlier one raises `err`. -/
def scanTokens (fd : List (String × Bool)) (err : Err) :
    Option Bool → List String → Except Err (Option Bool)
  | um, [] => .ok um
  | um, a :: rest =>
    match lookupKV a fd with
    | none => scanTokens fd err um rest
    | some v =>
      match um with
      | none => scanTokens fd err (some v) rest
      | some u => if u = v then scanTokens fd err (some u) rest else .error err

/-- The token list the source builds for one subject `subs` while
filtering the outer species `s`:
`s.attributes + [subs.material_type, repr(subs), subs.name]`. -/
def subjectTokens (s subs : Species) : List String :=
  s.attributes ++ [subs.material_type, subs.rep, subs.name]

/-- The outer loop of `apply_filter`: scan every subject's token list in
order, threading the `use_mechanism` state. -/
def scanSubjects (fd : List (String × Bool)) (err : Err) (s : Species) :
    Option Bool → List Species → Except Err (Option Bool)
  | um, [] => .ok um
  | um, t :: rest =>
    match scanTokens fd err um (subjectTokens s t) with
    | .ok um' => scanSubjects fd err s um' rest
    | .error e => .error e

/-- `species_list` of `apply_filter`: `[s] + s.species` when `s` is a
`ComplexSpecies`, else `[s]`. -/
def subjects : Species → List Species
  | .simple d => [.simple d]
  | .cplx d l => .cplx d l :: l

/-- `GlobalMechanism.apply_filter`: decide whether the mechanism acts on
`s`; a conflict among matched tokens raises an error naming `repr(s)` and
the mechanism, and if no token matches the result is `default_on`. -/
def apply_filter (m : GlobalMechanism) (s : Species) : Except Err Bool :=
  match scanSubjects m.filter_dict (.filterConflict s.rep m.name) s none (subjects s) with
  | .ok (some b) => .ok b
  | .ok none => .ok m.default_on
  | .error e => .error e

/-- All tokens `apply_filter` derives from a species, flattened in scan
order: for each subject (the species, then its direct constituents), the
outer attributes followed by that subject's material type,
representation and name. -/
def derivedTokens (s : Species) : List String :=
  (subjects s).flatMap (subjectTokens s)

/-- The `i`-th composite key tried by `get_parameter` (0-based; indices
`≥ 5` give the bare parameter name, the last key tried). -/
def nthKey (m : GlobalMechanism) (s : Species) (param_name : String) : Nat → PKey
  | 0 => .three m.name s.rep param_name
  | 1 => .three m.mechanism_type s.rep param_name
  | 2 => .two s.rep param_name
  | 3 => .two m.name param_name
  | 4 => .two m.mechanism_type param_name
  | _ => .one param_name

/-- `GlobalMechanism.get_parameter`: try the six composite keys from most
specific to most generic and return the first hit; if none exists raise a
`ValueError` naming the mechanism name, mechanism type, species
representation and parameter name. -/
def get_parameter {α : Type} (m : GlobalMechanism) (s : Species)
    (parameters : List (PKey × α)) (param_name : String) : Except Err α :=
  match lookupKV (PKey.three m.name s.rep param_name) parameters with
  | some v => .ok v
  | none =>
  match lookupKV (PKey.three m.mechanism_type s.rep param_name) parameters with
  | some v => .ok v
  | none =>
  match lookupKV (PKey.two s.rep param_name) parameters with
  | some v => .ok v
  | none =>
  match lookupKV (PKey.two m.name param_name) parameters with
  | some v => .ok v
  | none =>
  match lookupKV (PKey.two m.mechanism_type param_name) parameters with
  | some v => .ok v
  | none =>
  match lookupKV (PKey.one param_name) parameters with
  | some v => .ok v
  | none => .error (.lookupFailure m.name m.mechanism_type s.rep param_name)

/-- `GlobalMechanism.update_species_global`: walk the species list in
order; for each species run the filter and, when it says `true`, append
the `update_species` hook's output.  The hook is passed explicitly,
modelling Python method overriding; any raised error aborts the loop. -/
def update_species_global {α β : Type} (m : GlobalMechanism)
    (hook : Species → List (PKey × α) → Except Err (List β)) :
    List Species → List (PKey × α) → Except Err (List β)
  | [], _ => .ok []
  | s :: rest, parameters =>
    match apply_filter m s with
    | .error e => .error e
    | .ok use_mechanism =>
      match (if use_mechanism then hook s parameters else .ok []) with
      | .error e => .error e
      | .ok out =>
        match update_species_global m hook rest parameters with
        | .error e => .error e
        | .ok tail => .ok (out ++ tail)

/-- `GlobalMechanism.update_reactions_global`: same loop as
`update_species_global`, dispatching to the `update_reactions` hook. -/
def update_reactions_global {α β : Type} (m : GlobalMechanism)
    (hook : Species → List (PKey × α) → Except Err (List β)) :
    List Species → List (PKey × α) → Except Err (List β)
  | [], _ => .ok []
  | s :: rest, parameters =>
    match apply_filter m s with
    | .error e => .error e
    | .ok use_mechanism =>
      match (if use_mechanism then hook s parameters else .ok []) with
      | .error e => .error e
      | .ok out =>
        match update_reactions_global m hook rest parameters with
        | .error e => .error e
        | .ok tail => .ok (out ++ tail)

/-- The default `update_species` hook of the base class: returns `[]`. -/
def default_update_species {α : Type} (_s : Species) (_parameters : List (PKey × α)) :
    Except Err (List Species) := .ok []

/-- The default `update_reactions` hook of the base class: returns `[]`. -/
def default_update_reactions {α β : Type} (_s : Species) (_parameters : List (PKey × α)) :
    Except Err (List β) := .ok []

/-- A `Reaction` as this module builds it: ordered reactant and product
lists and a rate. -/
structure Reaction (α : Type) where
  reactants : List Species
  products : List Species
  rate : α

/-- The `Dilution` mechanism built by its constructor: default name
`global_degredation_via_dilution`, mechanism type `dilution`,
`default_on = True`. -/
def Dilution.make (filter_dict : List (String × Bool)) (default_on : Bool) :
    GlobalMechanism :=
  { name := "global_degredation_via_dilution", mechanism_type := "dilution",
    filter_dict := filter_dict, default_on := default_on }

/-- `Dilution.update_reactions`: resolve `kdil` through `get_parameter`
(using the mechanism's own name and type in the six-key chain) and build
one decay reaction `[s] -> []` at rate `kdil`. -/
def Dilution.update_reactions {α : Type} (m : GlobalMechanism) (s : Species)
    (parameters : List (PKey × α)) : Except Err (List (Reaction α)) :=
  match get_parameter m s parameters "kdil" with
  | .ok k_dil => .ok [⟨[s], [], k_dil⟩]
  | .error e => .error e

/-- The `AnitDilutionConstiutiveCreation` mechanism built by its
constructor: default name `anti_dilution_constiuitive_creation`,
mechanism type `dilution`, `default_on = True`. -/
def AnitDilutionConstiutiveCreation.make (filter_dict : List (String × Bool))
    (default_on : Bool) : GlobalMechanism :=
  { name := "anti_dilution_constiuitive_creation", mechanism_type := "dilution",
    filter_dict := filter_dict, default_on := default_on }

/-- `AnitDilutionConstiutiveCreation.update_reactions`: read the bare key
`kdil` straight from the parameter dictionary (a missing key is a raw
`KeyError`) and build one production reaction `[] -> [s]` at rate `kdil`.
The mechanism `m` is the unused `self`; the resolver chain is never
consulted. -/
def AnitDilutionConstiutiveCreation.update_reactions {α : Type}
    (_m : GlobalMechanism) (s : Species) (parameters : List (PKey × α)) :
    Except Err (List (Reaction α)) :=
  match lookupKV (PKey.one "kdil") parameters with
  | some k_dil => .ok [⟨[], [s], k_dil⟩]
  | none => .error (.keyError (.one "kdil"))

/-! ### Lemmas about the token scan -/

theorem scanTokens_append (fd : List (String × Bool)) (err : Err)
    (um : Option Bool) (l1 l2 : List String) :
    scanTokens fd err um (l1 ++ l2) =
      match scanTokens fd err um l1 with
      | .ok um' => scanTokens fd err um' l2
      | .error e => .error e := by
  induction l1 generalizing um with
  | nil => simp [scanTokens]
  | cons a rest ih =>
    simp only [List.cons_append, scanTokens]
    cases h : lookupKV a fd with
    | none => exact ih um
    | some v =>
      cases um with
      | none => exact ih (some v)
      | some u =>
        by_cases huv : u = v
        · simp only [if_pos huv]
          exact ih (some u)
        · simp [if_neg huv]

theorem scanSubjects_eq_flat (fd : List (String × Bool)) (err : Err)
    (s : Species) (um : Option Bool) (ts : List Species) :
    scanSubjects fd err s um ts =
      scanTokens fd err um (ts.flatMap (subjectTokens s)) := by
  induction ts generalizing um with
  | nil => simp [scanSubjects, scanTokens]
  | cons t rest ih =>
    simp only [scanSubjects, List.flatMap_cons, scanTokens_append]
    cases h : scanTokens fd err um (subjectTokens s t) with
    | ok um' => exact ih um'
    | error e => rfl

theorem apply_filter_eq_flat (m : GlobalMechanism) (s : Species) :
    apply_filter m s =
      match scanTokens m.filter_dict (.filterConflict s.rep m.name) none
          (derivedTokens s) with
      | .ok (some b) => .ok b
      | .ok none => .ok m.default_on
      | .error e => .error e := by
  rw [apply_filter, scanSubjects_eq_flat, derivedTokens]

theorem scanTokens_cons_nomatch {fd : List (String × Bool)} {err : Err}
    {a : String} (um : Option Bool) (rest : List String)
    (ha : lookupKV a fd = none) :
    scanTokens fd err um (a :: rest) = scanTokens fd err um rest := by
  simp [scanTokens, ha]

theorem scanTokens_cons_first {fd : List (String × Bool)} {err : Err}
    {a : String} {v : Bool} (rest : List String)
    (ha : lookupKV a fd = some v) :
    scanTokens fd err none (a :: rest) = scanTokens fd err (some v) rest := by
  simp [scanTokens, ha]

theorem scanTokens_cons_seen {fd : List (String × Bool)} {err : Err}
    {a : String} {v : Bool} (u : Bool) (rest : List String)
    (ha : lookupKV a fd = some v) :
    scanTokens fd err (some u) (a :: rest) =
      if u = v then scanTokens fd err (some u) rest else .error err := by
  simp [scanTokens, ha]

theorem scanTokens_no_match (fd : List (String × Bool)) (err : Err)
    (um : Option Bool) (toks : List String)
    (h : ∀ a ∈ toks, lookupKV a fd = none) :
    scanTokens fd err um toks = .ok um := by
  induction toks with
  | nil => rfl
  | cons a rest ih =>
    have ha := h a (List.mem_cons_self a rest)
    simp only [scanTokens, ha]
    exact ih fun a ha' => h a (List.mem_cons_of_mem _ ha')

theorem scanTokens_agree_some (fd : List (String × Bool)) (err : Err)
    (b : Bool) (toks : List String)
    (h : ∀ a ∈ toks, ∀ c, lookupKV a fd = some c → c = b) :
    scanTokens fd err (some b) toks = .ok (some b) := by
  induction toks with
  | nil => rfl
  | cons a rest ih =>
    simp only [scanTokens]
    cases ha : lookupKV a fd with
    | none => exact ih fun a ha' => h a (List.mem_cons_of_mem _ ha')
    | some v =>
      have hv : v = b := h a (List.mem_cons_self a rest) v ha
      subst hv
      simp only [if_pos rfl]
      exact ih fun a ha' => h a (List.mem_cons_of_mem _ ha')

theorem scanTokens_agree_none (fd : List (String × Bool)) (err : Err)
    (b : Bool) (toks : List String)
    (h : ∀ a ∈ toks, ∀ c, lookupKV a fd = some c → c = b)
    (hex : ∃ a ∈ toks, (lookupKV a fd).isSome) :
    scanTokens fd err none toks = .ok (some b) := by
  induction toks with
  | nil => obtain ⟨a, ha, _⟩ := hex; exact absurd ha (List.not_mem_nil a)
  | cons a rest ih =>
    simp only [scanTokens]
    cases ha : lookupKV a fd with
    | none =>
      refine ih (fun a ha' => h a (List.mem_cons_of_mem _ ha')) ?_
      obtain ⟨x, hx, hxs⟩ := hex
      rcases List.mem_cons.mp hx with rfl | hx'
      · rw [ha] at hxs; exact absurd hxs (by simp)
      · exact ⟨x, hx', hxs⟩
    | some v =>
      have hv : v = b := h a (List.mem_cons_self a rest) v ha
      show scanTokens fd err (some v) rest = Except.ok (some b)
      rw [hv]
      exact scanTokens_agree_some fd err b rest
        fun x hx' => h x (List.mem_cons_of_mem _ hx')

theorem scanTokens_ok_sound (fd : List (String × Bool)) (err : Err)
    (um : Option Bool) (toks : List String) (r : Option Bool)
    (hok : scanTokens fd err um toks = .ok r) :
    (∀ d, um = some d → r = some d) ∧
      (∀ a ∈ toks, ∀ c, lookupKV a fd = some c → r = some c) := by
  induction toks generalizing um with
  | nil =>
    simp only [scanTokens, Except.ok.injEq] at hok
    subst hok
    exact ⟨fun d hd => hd, fun a ha => absurd ha (List.not_mem_nil a)⟩
  | cons a rest ih =>
    cases ha : lookupKV a fd with
    | none =>
      rw [scanTokens_cons_nomatch um rest ha] at hok
      obtain ⟨h1, h2⟩ := ih um hok
      refine ⟨h1, fun x hx c hc => ?_⟩
      rcases List.mem_cons.mp hx with rfl | hx'
      · rw [ha] at hc; exact absurd hc (by simp)
      · exact h2 x hx' c hc
    | some v =>
      cases um with
      | none =>
        rw [scanTokens_cons_first rest ha] at hok
        obtain ⟨h1, h2⟩ := ih (some v) hok
        have hr : r = some v := h1 v rfl
        refine ⟨fun d hd => absurd hd (by simp), fun x hx c hc => ?_⟩
        rcases List.mem_cons.mp hx with rfl | hx'
        · rw [ha] at hc; rw [hr, Option.some_inj.mp hc]
        · exact h2 x hx' c hc
      | some u =>
        rw [scanTokens_cons_seen u rest ha] at hok
        by_cases huv : u = v
        · rw [if_pos huv] at hok
          obtain ⟨h1, h2⟩ := ih (some u) hok
          have hr : r = some u := h1 u rfl
          refine ⟨fun d hd => by rw [hr, ← Option.some_inj.mp hd], fun x hx c hc => ?_⟩
          rcases List.mem_cons.mp hx with rfl | hx'
          · rw [ha] at hc; rw [hr, huv, Option.some_inj.mp hc]
          · exact h2 x hx' c hc
        · rw [if_neg huv] at hok
          exact absurd hok (by simp)

theorem scanTokens_error_eq (fd : List (String × Bool)) (err : Err)
    (um : Option Bool) (toks : List String) (e : Err)
    (he : scanTokens fd err um toks = .error e) : e = err := by
  induction toks generalizing um with
  | nil => exact absurd he (by simp [scanTokens])
  | cons a rest ih =>
    cases ha : lookupKV a fd with
    | none =>
      rw [scanTokens_cons_nomatch um rest ha] at he
      exact ih um he
    | some v =>
      cases um with
      | none =>
        rw [scanTokens_cons_first rest ha] at he
        exact ih (some v) he
      | some u =>
        rw [scanTokens_cons_seen u rest ha] at he
        by_cases huv : u = v
        · rw [if_pos huv] at he; exact ih (some u) he
        · rw [if_neg huv] at he
          exact (Except.error.inj he).symm

/-! ### The filter as the spec words it (for the refinement claim C3) -/

/-- The filter decision as §4.2 of the spec words it: the subjects are
the species itself followed by its direct constituents; each subject
contributes the outer species' attribute set together with the subject's
material type, representation and name; the tokens are then scanned with
the first-match/conflict rule. -/
def shouldApplySpec (m : GlobalMechanism) (s : Species) : Except Err Bool :=
  let subjectList := s :: s.subspecies
  let toks := subjectList.flatMap
    (fun t => s.attributes ++ [t.material_type, t.rep, t.name])
  match scanTokens m.filter_dict (.filterConflict s.rep m.name) none toks with
  | .ok (some b) => .ok b
  | .ok none => .ok m.default_on
  | .error e => .error e

theorem subjects_eq_cons (s : Species) : subjects s = s :: s.subspecies := by
  cases s <;> rfl

theorem flatMap_shallow_congr (attrs : List String) {l l' : List Species}
    (h : List.Forall₂ (fun t t' => t.name = t'.name ∧
      t.material_type = t'.material_type ∧ t.rep = t'.rep) l l') :
    l.flatMap (fun t => attrs ++ [t.material_type, t.rep, t.name]) =
      l'.flatMap (fun t => attrs ++ [t.material_type, t.rep, t.name]) := by
  induction h with
  | nil => rfl
  | cons h _ ih => simp only [List.flatMap_cons, ih, h.1, h.2.1, h.2.2]

/-! ### Concrete inputs used by the witnesses -/

def mechW : GlobalMechanism :=
  { name := "mech", mechanism_type := "mtype",
    filter_dict := [("dna", true)], default_on := false }

def sRNA : Species := .simple ⟨"x", "rna", "rna_x", []⟩

def sDNA : Species := .simple ⟨"y", "dna", "dna_y", []⟩

def mechConf : GlobalMechanism :=
  { name := "mechc", mechanism_type := "mtype",
    filter_dict := [("dna", true), ("degtag", false)], default_on := true }

def sTagged : Species := .simple ⟨"z", "dna", "dna_z", ["degtag"]⟩

/-- The token set claim C1's parenthetical describes: each subject would
contribute its own attributes as well, whereas the code always reuses
the outer species' attribute set. -/
def claimDerivedTokens (s : Species) : List String :=
  (subjects s).flatMap (fun t => t.attributes ++ [t.material_type, t.rep, t.name])

def mechX : GlobalMechanism :=
  { name := "mx", mechanism_type := "tx",
    filter_dict := [("x", true)], default_on := false }

def sHiddenAttr : Species :=
  .cplx ⟨"c", "cpx", "cpx_c", []⟩ [.simple ⟨"t", "m", "m_t", ["x"]⟩]

/-! ### Claims about the species filter -/

/-- Counterexample to claim C1 as stated: with filter table
`[("x", true)]` and `default_on = false`, a composite species whose only
token present in the table is a direct constituent's attribute `"x"`
(mapped to `true`, with every matching token agreeing) still receives
`false`: `apply_filter` never consults a constituent's own attributes,
so it falls back to the default instead of the agreed `true`. -/
theorem apply_filter_constituent_attribute_counterexample :
    "x" ∈ claimDerivedTokens sHiddenAttr ∧
      lookupKV "x" mechX.filter_dict = some true ∧
      (∀ a ∈ claimDerivedTokens sHiddenAttr, ∀ c,
        lookupKV a mechX.filter_dict = some c → c = true) ∧
      mechX.default_on = false ∧
      apply_filter mechX sHiddenAttr = .ok false := by
  refine ⟨by decide, rfl, ?_, rfl, rfl⟩
  intro a ha
  fin_cases ha <;> intro c hc <;> simp_all [lookupKV, mechX]

/-- Claim C1 (amended: the derived tokens are those the code builds —
the outer species' attributes together with each subject's material
type, representation and name; a constituent's own attributes are not
consulted): for every species and every filter table, if no derived
token is a key of the filter table then `apply_filter` returns exactly
`default_on`; and if at least one derived token is a key and all
matching tokens map to the same boolean, `apply_filter` returns that
agreed boolean regardless of `default_on`. -/
theorem apply_filter_default_and_agreement (m : GlobalMechanism) (s : Species) :
    ((∀ a ∈ derivedTokens s, lookupKV a m.filter_dict = none) →
      apply_filter m s = .ok m.default_on) ∧
    (∀ b : Bool, (∃ a ∈ derivedTokens s, lookupKV a m.filter_dict = some b) →
      (∀ a ∈ derivedTokens s, ∀ c, lookupKV a m.filter_dict = some c → c = b) →
      apply_filter m s = .ok b) := by
  constructor
  · intro h
    rw [apply_filter_eq_flat, scanTokens_no_match _ _ none _ h]
  · intro b hex h
    have hex' : ∃ a ∈ derivedTokens s, (lookupKV a m.filter_dict).isSome := by
      obtain ⟨a, ha, hs⟩ := hex
      exact ⟨a, ha, by rw [hs]; rfl⟩
    rw [apply_filter_eq_flat, scanTokens_agree_none _ _ b _ h hex']

/-- Witness for C1 at concrete inputs: a species with no matching token
gets the default `false`, and a species whose material type alone matches
`("dna", true)` gets `true` although the default is `false`. -/
theorem apply_filter_default_and_agreement_witness :
    apply_filter mechW sRNA = .ok false ∧ apply_filter mechW sDNA = .ok true := by
  constructor
  · exact (apply_filter_default_and_agreement mechW sRNA).1
      (by intro a ha; fin_cases ha <;> rfl)
  · exact (apply_filter_default_and_agreement mechW sDNA).2 true
      ⟨"dna", by decide, rfl⟩
      (by intro a ha; fin_cases ha <;> intro c hc <;> simp_all [lookupKV, mechW])

/-- Claim C2: if two derived tokens are both keys of the filter table and
map to different boolean values, `apply_filter` fails with the conflict
error naming the species representation and the mechanism, and returns no
boolean. -/
theorem apply_filter_conflict (m : GlobalMechanism) (s : Species)
    (a1 a2 : String) (v1 v2 : Bool)
    (h1 : a1 ∈ derivedTokens s) (h2 : a2 ∈ derivedTokens s)
    (hl1 : lookupKV a1 m.filter_dict = some v1)
    (hl2 : lookupKV a2 m.filter_dict = some v2) (hne : v1 ≠ v2) :
    apply_filter m s = .error (.filterConflict s.rep m.name) := by
  rw [apply_filter_eq_flat]
  cases hscan : scanTokens m.filter_dict (.filterConflict s.rep m.name) none
      (derivedTokens s) with
  | ok r =>
    obtain ⟨-, hsound⟩ := scanTokens_ok_sound _ _ _ _ r hscan
    have e1 := hsound a1 h1 v1 hl1
    have e2 := hsound a2 h2 v2 hl2
    exact absurd (Option.some_inj.mp (e1.symm.trans e2)) hne
  | error e =>
    rw [scanTokens_error_eq _ _ _ _ e hscan]

/-- Witness for C2: a species carrying attribute `degtag` (mapped to
`false`) and material type `dna` (mapped to `true`) makes `apply_filter`
fail with the conflict error. -/
theorem apply_filter_conflict_witness :
    apply_filter mechConf sTagged = .error (.filterConflict "dna_z" "mechc") :=
  apply_filter_conflict mechConf sTagged "degtag" "dna" false true
    (by decide) (by decide) rfl rfl (by decide)

/-- Claim C3: `apply_filter` inspects as subjects exactly the species
itself plus its direct constituents, each contributing the outer species'
attributes with the subject's material type, representation and name
(stated as equality with the spec-worded `shouldApplySpec`); consequently
the result never depends on a constituent's own attributes or on any
structure below the direct constituents. -/
theorem apply_filter_subjects_and_tokens :
    (∀ (m : GlobalMechanism) (s : Species), apply_filter m s = shouldApplySpec m s) ∧
    (∀ (m : GlobalMechanism) (d : SpeciesData) (subs subs' : List Species),
      List.Forall₂ (fun t t' => t.name = t'.name ∧
        t.material_type = t'.material_type ∧ t.rep = t'.rep) subs subs' →
      apply_filter m (.cplx d subs) = apply_filter m (.cplx d subs')) := by
  constructor
  · intro m s
    rw [apply_filter_eq_flat, shouldApplySpec]
    simp only [derivedTokens, subjects_eq_cons, subjectTokens]
    rfl
  · intro m d subs subs' hf
    have htoks : derivedTokens (Species.cplx d subs) =
        derivedTokens (Species.cplx d subs') := by
      simp only [derivedTokens, subjects, List.flatMap_cons, subjectTokens,
        Species.attributes, Species.material_type, Species.rep, Species.name,
        Species.data]
      exact congrArg _ (flatMap_shallow_congr d.attributes hf)
    rw [apply_filter_eq_flat, apply_filter_eq_flat]
    have hrep : (Species.cplx d subs).rep = (Species.cplx d subs').rep := rfl
    rw [htoks, hrep]

/-- Witness for C3: the two parts applied at a concrete complex species;
replacing the constituent's attributes and its own sub-constituents
leaves the decision unchanged. -/
theorem apply_filter_subjects_and_tokens_witness :
    apply_filter mechW (.cplx ⟨"c", "cpx", "cpx_c", []⟩ [sDNA]) =
        shouldApplySpec mechW (.cplx ⟨"c", "cpx", "cpx_c", []⟩ [sDNA]) ∧
      apply_filter mechW
          (.cplx ⟨"c", "cpx", "cpx_c", []⟩ [.simple ⟨"y", "dna", "dna_y", ["hidden"]⟩]) =
        apply_filter mechW
          (.cplx ⟨"c", "cpx", "cpx_c", []⟩ [.cplx ⟨"y", "dna", "dna_y", []⟩ [sRNA]]) := by
  constructor
  · exact apply_filter_subjects_and_tokens.1 mechW (.cplx ⟨"c", "cpx", "cpx_c", []⟩ [sDNA])
  · exact apply_filter_subjects_and_tokens.2 mechW ⟨"c", "cpx", "cpx_c", []⟩ _ _
      (List.Forall₂.cons ⟨rfl, rfl, rfl⟩ List.Forall₂.nil)

/-! ### Claims about the parameter resolver -/

/-- Claim C4: `get_parameter` returns the value stored under the most
specific available key of the fixed six-key chain
`(name, repr, param)`, `(type, repr, param)`, `(repr, param)`,
`(name, param)`, `(type, param)`, bare `param`: if the `i`-th key is
present and every strictly more specific key is absent, its value is
returned. -/
theorem get_parameter_precedence {α : Type} (m : GlobalMechanism) (s : Species)
    (parameters : List (PKey × α)) (p : String) (i : Nat) (v : α)
    (hi : i < 6) (hv : lookupKV (nthKey m s p i) parameters = some v)
    (hnone : ∀ j, j < i → lookupKV (nthKey m s p j) parameters = none) :
    get_parameter m s parameters p = .ok v := by
  interval_cases i
  · have k0 : lookupKV (PKey.three m.name s.rep p) parameters = some v := hv
    simp [get_parameter, k0]
  · have h0 : lookupKV (PKey.three m.name s.rep p) parameters = none :=
      hnone 0 (by omega)
    have k1 : lookupKV (PKey.three m.mechanism_type s.rep p) parameters = some v := hv
    simp [get_parameter, h0, k1]
  · have h0 : lookupKV (PKey.three m.name s.rep p) parameters = none :=
      hnone 0 (by omega)
    have h1 : lookupKV (PKey.three m.mechanism_type s.rep p) parameters = none :=
      hnone 1 (by omega)
    have k2 : lookupKV (PKey.two s.rep p) parameters = some v := hv
    simp [get_parameter, h0, h1, k2]
  · have h0 : lookupKV (PKey.three m.name s.rep p) parameters = none :=
      hnone 0 (by omega)
    have h1 : lookupKV (PKey.three m.mechanism_type s.rep p) parameters = none :=
      hnone 1 (by omega)
    have h2 : lookupKV (PKey.two s.rep p) parameters = none :=
      hnone 2 (by omega)
    have k3 : lookupKV (PKey.two m.name p) parameters = some v := hv
    simp [get_parameter, h0, h1, h2, k3]
  · have h0 : lookupKV (PKey.three m.name s.rep p) parameters = none :=
      hnone 0 (by omega)
    have h1 : lookupKV (PKey.three m.mechanism_type s.rep p) parameters = none :=
      hnone 1 (by omega)
    have h2 : lookupKV (PKey.two s.rep p) parameters = none :=
      hnone 2 (by omega)
    have h3 : lookupKV (PKey.two m.name p) parameters = none :=
      hnone 3 (by omega)
    have k4 : lookupKV (PKey.two m.mechanism_type p) parameters = some v := hv
    simp [get_parameter, h0, h1, h2, h3, k4]
  · have h0 : lookupKV (PKey.three m.name s.rep p) parameters = none :=
      hnone 0 (by omega)
    have h1 : lookupKV (PKey.three m.mechanism_type s.rep p) parameters = none :=
      hnone 1 (by omega)
    have h2 : lookupKV (PKey.two s.rep p) parameters = none :=
      hnone 2 (by omega)
    have h3 : lookupKV (PKey.two m.name p) parameters = none :=
      hnone 3 (by omega)
    have h4 : lookupKV (PKey.two m.mechanism_type p) parameters = none :=
      hnone 4 (by omega)
    have k5 : lookupKV (PKey.one p) parameters = some v := hv
    simp [get_parameter, h0, h1, h2, h3, h4, k5]

/-- Witness for C4: a store holding both `(repr, "kdil")` (shape 2) and
bare `"kdil"` (shape 5); the more specific key's value `2` is returned,
not `7`. -/
theorem get_parameter_precedence_witness :
    get_parameter mechW sRNA
      [(PKey.two "rna_x" "kdil", (2 : Int)), (PKey.one "kdil", 7)] "kdil" =
      .ok 2 :=
  get_parameter_precedence mechW sRNA
    [(PKey.two "rna_x" "kdil", (2 : Int)), (PKey.one "kdil", 7)] "kdil" 2 2
    (by omega) rfl (by intro j hj; interval_cases j <;> rfl)

/-- Claim C5: `get_parameter` fails exactly when none of the six keys is
in the store, the only failure value names the mechanism name, mechanism
type, species representation and parameter name, and the lookup is a
pure read of the store. -/
theorem get_parameter_failure_iff {α : Type} (m : GlobalMechanism) (s : Species)
    (parameters : List (PKey × α)) (p : String) :
    (get_parameter m s parameters p =
        .error (.lookupFailure m.name m.mechanism_type s.rep p) ↔
      ∀ i, i < 6 → lookupKV (nthKey m s p i) parameters = none) ∧
    (∀ e, get_parameter m s parameters p = .error e →
      e = .lookupFailure m.name m.mechanism_type s.rep p) := by
  cases h0 : lookupKV (PKey.three m.name s.rep p) parameters with
  | some v =>
    have hgp : get_parameter m s parameters p = .ok v := by
      simp [get_parameter, h0]
    rw [hgp]
    refine ⟨⟨fun h => absurd h (by simp), fun hall => ?_⟩, fun e he => absurd he (by simp)⟩
    have hc : lookupKV (PKey.three m.name s.rep p) parameters = none :=
      hall 0 (by omega)
    rw [h0] at hc
    exact absurd hc (by simp)
  | none =>
  cases h1 : lookupKV (PKey.three m.mechanism_type s.rep p) parameters with
  | some v =>
    have hgp : get_parameter m s parameters p = .ok v := by
      simp [get_parameter, h0, h1]
    rw [hgp]
    refine ⟨⟨fun h => absurd h (by simp), fun hall => ?_⟩, fun e he => absurd he (by simp)⟩
    have hc : lookupKV (PKey.three m.mechanism_type s.rep p) parameters = none :=
      hall 1 (by omega)
    rw [h1] at hc
    exact absurd hc (by simp)
  | none =>
  cases h2 : lookupKV (PKey.two s.rep p) parameters with
  | some v =>
    have hgp : get_parameter m s parameters p = .ok v := by
      simp [get_parameter, h0, h1, h2]
    rw [hgp]
    refine ⟨⟨fun h => absurd h (by simp), fun hall => ?_⟩, fun e he => absurd he (by simp)⟩
    have hc : lookupKV (PKey.two s.rep p) parameters = none :=
      hall 2 (by omega)
    rw [h2] at hc
    exact absurd hc (by simp)
  | none =>
  cases h3 : lookupKV (PKey.two m.name p) parameters with
  | some v =>
    have hgp : get_parameter m s parameters p = .ok v := by
      simp [get_parameter, h0, h1, h2, h3]
    rw [hgp]
    refine ⟨⟨fun h => absurd h (by simp), fun hall => ?_⟩, fun e he => absurd he (by simp)⟩
    have hc : lookupKV (PKey.two m.name p) parameters = none :=
      hall 3 (by omega)
    rw [h3] at hc
    exact absurd hc (by simp)
  | none =>
  cases h4 : lookupKV (PKey.two m.mechanism_type p) parameters with
  | some v =>
    have hgp : get_parameter m s parameters p = .ok v := by
      simp [get_parameter, h0, h1, h2, h3, h4]
    rw [hgp]
    refine ⟨⟨fun h => absurd h (by simp), fun hall => ?_⟩, fun e he => absurd he (by simp)⟩
    have hc : lookupKV (PKey.two m.mechanism_type p) parameters = none :=
      hall 4 (by omega)
    rw [h4] at hc
    exact absurd hc (by simp)
  | none =>
  cases h5 : lookupKV (PKey.one p) parameters with
  | some v =>
    have hgp : get_parameter m s parameters p = .ok v := by
      simp [get_parameter, h0, h1, h2, h3, h4, h5]
    rw [hgp]
    refine ⟨⟨fun h => absurd h (by simp), fun hall => ?_⟩, fun e he => absurd he (by simp)⟩
    have hc : lookupKV (PKey.one p) parameters = none :=
      hall 5 (by omega)
    rw [h5] at hc
    exact absurd hc (by simp)
  | none =>
    have hgp : get_parameter m s parameters p =
        .error (.lookupFailure m.name m.mechanism_type s.rep p) := by
      simp [get_parameter, h0, h1, h2, h3, h4, h5]
    rw [hgp]
    refine ⟨⟨fun _ i hi => ?_, fun _ => rfl⟩, fun e he => (Except.error.inj he).symm⟩
    interval_cases i
    · exact h0
    · exact h1
    · exact h2
    · exact h3
    · exact h4
    · exact h5

/-- Witness for C5: on the empty store the resolver fails with the
diagnostic error naming the mechanism, the species representation and
the parameter. -/
theorem get_parameter_failure_iff_witness :
    get_parameter mechW sRNA ([] : List (PKey × Int)) "kdil" =
      .error (.lookupFailure "mech" "mtype" "rna_x" "kdil") :=
  (get_parameter_failure_iff mechW sRNA ([] : List (PKey × Int)) "kdil").1.mpr
    (by intro i hi; interval_cases i <;> rfl)

/-! ### Claims about the bulk dispatch loops -/

/-- Claim C6: both bulk operations visit species in input order, include
the hook's whole output (in the hook's own order) for exactly the species
whose filter decision is `true`, and contribute nothing at all for
species whose decision is `false`. -/
theorem update_global_filter_dispatch {α β γ : Type} (m : GlobalMechanism)
    (hookS : Species → List (PKey × α) → Except Err (List β))
    (hookR : Species → List (PKey × α) → Except Err (List γ))
    (dec : Species → Bool) (outS : Species → List β) (outR : Species → List γ)
    (L : List Species) (parameters : List (PKey × α))
    (hdec : ∀ s ∈ L, apply_filter m s = .ok (dec s))
    (hS : ∀ s ∈ L, dec s = true → hookS s parameters = .ok (outS s))
    (hR : ∀ s ∈ L, dec s = true → hookR s parameters = .ok (outR s)) :
    update_species_global m hookS L parameters =
        .ok (L.flatMap fun s => if dec s then outS s else []) ∧
      update_reactions_global m hookR L parameters =
        .ok (L.flatMap fun s => if dec s then outR s else []) := by
  induction L with
  | nil => exact ⟨rfl, rfl⟩
  | cons s rest ih =>
    have hds := hdec s (List.mem_cons_self s rest)
    obtain ⟨ih1, ih2⟩ := ih (fun x hx => hdec x (List.mem_cons_of_mem _ hx))
      (fun x hx => hS x (List.mem_cons_of_mem _ hx))
      (fun x hx => hR x (List.mem_cons_of_mem _ hx))
    by_cases hd : dec s = true
    · have hSs := hS s (List.mem_cons_self s rest) hd
      have hRs := hR s (List.mem_cons_self s rest) hd
      constructor
      · simp [update_species_global, hds, hd, hSs, ih1]
      · simp [update_reactions_global, hds, hd, hRs, ih2]
    · have hd' : dec s = false := by
        cases hdd : dec s
        · rfl
        · exact absurd hdd hd
      constructor
      · simp [update_species_global, hds, hd', ih1]
      · simp [update_reactions_global, hds, hd', ih2]

/-- Witness for C6: a two-species list where the first passes the filter
and the second does not; with a hook returning the species itself the
output keeps exactly the passing species, with the failing one omitted. -/
theorem update_global_filter_dispatch_witness :
    update_species_global mechW (fun s _ => .ok [s]) [sDNA, sRNA]
        ([] : List (PKey × Int)) = .ok [sDNA] ∧
      update_reactions_global mechW (fun s _ => .ok [s.name]) [sDNA, sRNA]
        ([] : List (PKey × Int)) = .ok ["y"] := by
  have h := update_global_filter_dispatch mechW (fun s _ => .ok [s])
    (fun s _ => .ok [s.name]) (fun s => s.material_type == "dna")
    (fun s => [s]) (fun s => [s.name]) [sDNA, sRNA] ([] : List (PKey × Int))
    (by intro s hs; fin_cases hs <;> rfl)
    (by intro s hs _; rfl)
    (by intro s hs _; rfl)
  exact h

/-- Claim C10: `update_species_global` and `update_reactions_global` are
homomorphisms over list concatenation: the result on `L1 ++ L2` is the
monadic concatenation of the results on `L1` and on `L2`, so a species
occurring twice is filtered and dispatched independently at each
occurrence. -/
theorem update_global_append {α β γ : Type} (m : GlobalMechanism)
    (hookS : Species → List (PKey × α) → Except Err (List β))
    (hookR : Species → List (PKey × α) → Except Err (List γ))
    (L1 L2 : List Species) (parameters : List (PKey × α)) :
    (update_species_global m hookS (L1 ++ L2) parameters =
      match update_species_global m hookS L1 parameters with
      | .error e => .error e
      | .ok a =>
        match update_species_global m hookS L2 parameters with
        | .error e => .error e
        | .ok b => .ok (a ++ b)) ∧
    (update_reactions_global m hookR (L1 ++ L2) parameters =
      match update_reactions_global m hookR L1 parameters with
      | .error e => .error e
      | .ok a =>
        match update_reactions_global m hookR L2 parameters with
        | .error e => .error e
        | .ok b => .ok (a ++ b)) := by
  induction L1 with
  | nil =>
    constructor
    · cases h : update_species_global m hookS L2 parameters <;>
        simp [update_species_global, h]
    · cases h : update_reactions_global m hookR L2 parameters <;>
        simp [update_reactions_global, h]
  | cons s rest ih =>
    obtain ⟨ih1, ih2⟩ := ih
    constructor
    · show update_species_global m hookS (s :: (rest ++ L2)) parameters = _
      cases hf : apply_filter m s with
      | error e => simp [update_species_global, hf]
      | ok b =>
        cases hh : (if b then hookS s parameters else Except.ok []) with
        | error e => simp [update_species_global, hf, hh]
        | ok out =>
          cases hr1 : update_species_global m hookS rest parameters with
          | error e => simp [update_species_global, hf, hh, ih1, hr1]
          | ok a =>
            cases hr2 : update_species_global m hookS L2 parameters with
            | error e => simp [update_species_global, hf, hh, ih1, hr1, hr2]
            | ok bl =>
              simp [update_species_global, hf, hh, ih1, hr1, hr2, List.append_assoc]
    · show update_reactions_global m hookR (s :: (rest ++ L2)) parameters = _
      cases hf : apply_filter m s with
      | error e => simp [update_reactions_global, hf]
      | ok b =>
        cases hh : (if b then hookR s parameters else Except.ok []) with
        | error e => simp [update_reactions_global, hf, hh]
        | ok out =>
          cases hr1 : update_reactions_global m hookR rest parameters with
          | error e => simp [update_reactions_global, hf, hh, ih2, hr1]
          | ok a =>
            cases hr2 : update_reactions_global m hookR L2 parameters with
            | error e => simp [update_reactions_global, hf, hh, ih2, hr1, hr2]
            | ok bl =>
              simp [update_reactions_global, hf, hh, ih2, hr1, hr2, List.append_assoc]

/-! ### Claims about the two concrete mechanisms -/

/-- Claim C7: whenever `kdil` resolves through the six-key chain to `k`,
`Dilution.update_reactions` returns exactly one reaction with reactants
`[s]`, no products, and rate `k`. -/
theorem dilution_update_reactions_decay {α : Type} (m : GlobalMechanism)
    (s : Species) (parameters : List (PKey × α)) (k : α)
    (h : get_parameter m s parameters "kdil" = .ok k) :
    Dilution.update_reactions m s parameters =
      .ok [{ reactants := [s], products := [], rate := k }] := by
  simp [Dilution.update_reactions, h]

/-- Witness for C7: the stock dilution mechanism on a store holding bare
`"kdil" = 1/100` produces the single decay reaction at rate `1/100`. -/
theorem dilution_update_reactions_decay_witness :
    Dilution.update_reactions (Dilution.make [] true) sRNA
        [(PKey.one "kdil", (1 / 100 : ℚ))] =
      .ok [{ reactants := [sRNA], products := [], rate := (1 / 100 : ℚ) }] :=
  dilution_update_reactions_decay (Dilution.make [] true) sRNA
    [(PKey.one "kdil", (1 / 100 : ℚ))] (1 / 100 : ℚ) rfl

/-- Claim C8: with the bare key `"kdil"` bound to `k` in the store,
`AnitDilutionConstiutiveCreation.update_reactions` returns exactly one
reaction with no reactants, products `[s]`, and rate `k`, reading the
store directly: the result never depends on the mechanism's name or
type, so the six-key chain is not consulted. -/
theorem anti_dilution_update_reactions_creation {α : Type}
    (m : GlobalMechanism) (s : Species) (parameters : List (PKey × α)) (k : α)
    (h : lookupKV (PKey.one "kdil") parameters = some k) :
    AnitDilutionConstiutiveCreation.update_reactions m s parameters =
        .ok [{ reactants := [], products := [s], rate := k }] ∧
      ∀ m' : GlobalMechanism,
        AnitDilutionConstiutiveCreation.update_reactions m' s parameters =
          AnitDilutionConstiutiveCreation.update_reactions m s parameters := by
  exact ⟨by simp [AnitDilutionConstiutiveCreation.update_reactions, h],
    fun m' => rfl⟩

/-- Witness for C8: a store that also holds a more specific scoped key
with a different value; the bare key's value `2` is used, showing the
resolver chain is bypassed. -/
theorem anti_dilution_update_reactions_creation_witness :
    AnitDilutionConstiutiveCreation.update_reactions
        (AnitDilutionConstiutiveCreation.make [] true) sRNA
        [(PKey.three "anti_dilution_constiuitive_creation" "rna_x" "kdil", (5 : Int)),
          (PKey.one "kdil", 2)] =
      .ok [{ reactants := [], products := [sRNA], rate := (2 : Int) }] :=
  (anti_dilution_update_reactions_creation
    (AnitDilutionConstiutiveCreation.make [] true) sRNA
    [(PKey.three "anti_dilution_constiuitive_creation" "rna_x" "kdil", (5 : Int)),
      (PKey.one "kdil", 2)] (2 : Int) rfl).1

/-- Claim C9: when the bare key `"kdil"` is absent — even if mechanism-
or species-scoped keys are present — the anti-dilution mechanism fails
with a raw key-lookup error, which is distinct from every diagnostic
`lookupFailure` value. -/
theorem anti_dilution_missing_key {α : Type} (m : GlobalMechanism)
    (s : Species) (parameters : List (PKey × α))
    (h : lookupKV (PKey.one "kdil") parameters = none) :
    AnitDilutionConstiutiveCreation.update_reactions m s parameters =
        .error (.keyError (.one "kdil")) ∧
      ∀ n t r p, Err.keyError (.one "kdil") ≠ .lookupFailure n t r p := by
  exact ⟨by simp [AnitDilutionConstiutiveCreation.update_reactions, h],
    fun n t r p => by simp⟩

/-- Witness for C9: a store holding only the scoped keys
`(name, repr, "kdil")` and `(repr, "kdil")` but not bare `"kdil"`; the
call fails with the raw key error. -/
theorem anti_dilution_missing_key_witness :
    AnitDilutionConstiutiveCreation.update_reactions
        (AnitDilutionConstiutiveCreation.make [] true) sRNA
        [(PKey.three "anti_dilution_constiuitive_creation" "rna_x" "kdil", (5 : Int)),
          (PKey.two "rna_x" "kdil", 3)] =
      .error (.keyError (.one "kdil")) :=
  (anti_dilution_missing_key
    (AnitDilutionConstiutiveCreation.make [] true) sRNA
    [(PKey.three "anti_dilution_constiuitive_creation" "rna_x" "kdil", (5 : Int)),
      (PKey.two "rna_x" "kdil", 3)] rfl).1

end BioCRNPyler
